import Mathlib

/-!
Verification of `src/packages/datastore/src/fields.ts` (PhosphorJS datastore
schema field types). The file defines an abstract `BaseField` holding the
`undoable` and `description` options and a process-unique `uuid`, four
concrete field kinds (`ListField`, `MapField`, `TextField`, `ValueField`)
whose `type` getters return constant discriminants, the change-record shapes
for each kind, and a `Field` factory namespace with defaulting convenience
constructors.

The embedding models the runtime (JavaScript) semantics of the TypeScript
source. A property slot of an options object is `Option (Option α)`:
`none` when the key is absent, `some none` when the key is present holding
`undefined`, and `some (some v)` when the key is present holding `v`. The
external unique-id service `UUID.uuid4` (from the coreutils package, an
external collaborator) is modelled as an injected deterministic supply
`gen : Nat → String` threaded through construction with a counter: each
field construction reads the supply exactly once and advances the counter,
mirroring the single `UUID.uuid4()` call in the `uuid` property initializer.
Numeric values appearing in the claims (`0`, `42`) are embedded as `Int`,
since this layer stores values opaquely and never computes with them.
-/

namespace Phosphor

/-- Shorthand for the string type, used where a declaration in the `Field`
namespace would otherwise shadow the global name. -/
abbrev Str := String

/-- The injected unique-identity supply standing for `UUID.uuid4`: index `n`
is the identity produced by the n-th call made in the process. -/
abbrev UuidGen := Nat → Str

/-- Reading one property of a JavaScript object: an absent key reads as
`undefined`, a present key reads as its stored slot. -/
def readKey {α : Type} : Option (Option α) → Option α
  | none => none
  | some v => v

/-- Effect of the object spread `... defaults first, then options ...` on one
recognized key, as in line 39 of fields.ts, followed by reading the merged
key: when the key is absent from the supplied options the default survives;
when present (even holding `undefined`) the supplied slot overwrites it. -/
def spreadKey {α : Type} (dflt : α) : Option (Option α) → Option α
  | none => some dflt
  | some v => v

/-- Effect of the same spread on one key, kept at the options-object level,
as in the factory functions of fields.ts: the merged object always carries
the key; a supplied slot (even holding `undefined`) overwrites the default. -/
def spreadProp {α : Type} (dflt : α) : Option (Option α) → Option (Option α)
  | none => some (some dflt)
  | some v => some v

/-- Options for `BaseField` (fields.ts lines 90 to 110), in runtime view.
`undoable` and `description` are the two recognized keys; `extra` stands for
any unknown keys a caller may also have put on the options object, which the
constructor spread copies into the merged object but never reads. -/
structure BaseField.IOptions where
  undoable : Option (Option Bool)
  description : Option (Option Str)
  extra : List (Str × Str)

/-- A constructed `BaseField` (fields.ts lines 31 to 83): the `undoable` and
`description` properties assigned from the merged options, and the `uuid`
obtained from the external unique-id service. The `ValueType` and
`ChangeType` members of the class are compile-time phantom markers with no
runtime value and are not modelled. -/
structure BaseField where
  undoable : Option Bool
  description : Option Str
  uuid : Str

/-- The `BaseField` constructor (fields.ts lines 38 to 42) together with the
`uuid` property initializer (line 62): merge the defaults
`undoable = true`, `description = empty string` with the supplied options,
assign the two recognized keys, and draw one identity from the supply,
returning the advanced counter. -/
def BaseField.construct (gen : UuidGen) (o : BaseField.IOptions) (n : Nat) :
    BaseField × Nat :=
  ({ undoable := spreadKey true o.undoable,
     description := spreadKey "" o.description,
     uuid := gen n }, n + 1)

/-- A `ListField` (fields.ts lines 116 to 133). Its options interface
`ListField.IOptions` extends `BaseField.IOptions` and adds nothing, so the
base options type is used directly. -/
structure ListField where
  toBase : BaseField

/-- The `ListField` constructor (fields.ts lines 123 to 125): it forwards the
options to the base constructor unchanged. -/
def ListField.construct (gen : UuidGen) (o : BaseField.IOptions) (n : Nat) :
    ListField × Nat :=
  let r := BaseField.construct gen o n
  ({ toBase := r.1 }, r.2)

/-- The `type` getter of `ListField` (fields.ts lines 130 to 132). -/
def ListField.type (_ : ListField) : Str := "list"

/-- A single change to a list field, `ListField.IChange` (fields.ts lines
150 to 166): whether values were inserted or removed, the index of the
modification, and the values touched. -/
inductive ListChangeKind where
  | insert
  | remove

/-- A `MapField` (fields.ts lines 179 to 196). Its options interface adds
nothing to the base options. -/
structure MapField where
  toBase : BaseField

/-- The `MapField` constructor (fields.ts lines 186 to 188). -/
def MapField.construct (gen : UuidGen) (o : BaseField.IOptions) (n : Nat) :
    MapField × Nat :=
  let r := BaseField.construct gen o n
  ({ toBase := r.1 }, r.2)

/-- The `type` getter of `MapField` (fields.ts lines 193 to 195). -/
def MapField.type (_ : MapField) : Str := "map"

/-- A `TextField` (fields.ts lines 231 to 248). Its options interface adds
nothing to the base options. -/
structure TextField where
  toBase : BaseField

/-- The `TextField` constructor (fields.ts lines 238 to 240). -/
def TextField.construct (gen : UuidGen) (o : BaseField.IOptions) (n : Nat) :
    TextField × Nat :=
  let r := BaseField.construct gen o n
  ({ toBase := r.1 }, r.2)

/-- The `type` getter of `TextField` (fields.ts lines 245 to 247). -/
def TextField.type (_ : TextField) : Str := "text"

/-- A `ValueField` over value type `T` (fields.ts lines 294 to 317): the base
part plus the stored `value` property. In runtime view the stored value is
`Option T` because the constructor assigns `options.value` without any
check, and a caller that bypasses the static types may omit the key, leaving
the property `undefined`. -/
structure ValueField (T : Type) where
  toBase : BaseField
  value : Option T

/-- Options for `ValueField` (fields.ts lines 324 to 334), runtime view: the
base options plus the `value` slot. The static interface declares `value`
required; at runtime the slot may still be absent or `undefined`. Unknown
extra keys live in the base part. -/
structure ValueField.IOptions (T : Type) where
  toBase : BaseField.IOptions
  value : Option (Option T)

/-- The `ValueField` constructor (fields.ts lines 301 to 304): call the base
constructor with the same options object, then assign
`this.value = options.value` with no runtime presence check. -/
def ValueField.construct {T : Type} (gen : UuidGen) (o : ValueField.IOptions T)
    (n : Nat) : ValueField T × Nat :=
  let r := BaseField.construct gen o.toBase n
  ({ toBase := r.1, value := readKey o.value }, r.2)

/-- The `type` getter of `ValueField` (fields.ts lines 309 to 311). -/
def ValueField.type {T : Type} (_ : ValueField T) : Str := "value"

/-- Modelled from the spec: section 7 of the spec describes a configuration
error raised synchronously at construction when the required `value` option
is missing from a `ValueField` configuration. No such runtime check exists
in fields.ts (the requirement there is only the static type of
`ValueField.IOptions`), so this constructor follows the words of the spec,
for comparison with `ValueField.construct`, which embeds the code. -/
def ValueField.constructSpec {T : Type} (gen : UuidGen)
    (o : ValueField.IOptions T) (n : Nat) : Except Str (ValueField T × Nat) :=
  match o.value with
  | none => .error "configuration error: the value option is required"
  | some v =>
    let r := BaseField.construct gen o.toBase n
    .ok ({ toBase := r.1, value := v }, r.2)

/-- The tagged union of the four supported field kinds, the type alias
`Field` of fields.ts line 358. `J` stands for the JSON value type a value
field ranges over. -/
inductive Field (J : Type) where
  | list : ListField → Field J
  | map : MapField → Field J
  | text : TextField → Field J
  | value : ValueField J → Field J

/-- The shared base part of a field of any kind. -/
def Field.base {J : Type} : Field J → BaseField
  | .list f => f.toBase
  | .map f => f.toBase
  | .text f => f.toBase
  | .value f => f.toBase

/-- The `type` discriminant of a field of any kind, dispatching to the
getter of the concrete class. -/
def Field.type {J : Type} : Field J → Str
  | .list f => f.type
  | .map f => f.type
  | .text f => f.type
  | .value f => f.type

/-- The factory `Field.Boolean` (fields.ts lines 375 to 377): spread the
default `value = false` under the supplied options and construct a boolean
value field. -/
def Field.Boolean (gen : UuidGen) (o : ValueField.IOptions Bool) (n : Nat) :
    ValueField Bool × Nat :=
  ValueField.construct gen ⟨o.toBase, spreadProp false o.value⟩ n

/-- The factory `Field.Number` (fields.ts lines 388 to 390): default
`value = 0`. -/
def Field.Number (gen : UuidGen) (o : ValueField.IOptions Int) (n : Nat) :
    ValueField Int × Nat :=
  ValueField.construct gen ⟨o.toBase, spreadProp 0 o.value⟩ n

/-- The factory `Field.String` (fields.ts lines 401 to 403): default
`value` the empty string. -/
def Field.String (gen : UuidGen) (o : ValueField.IOptions Str) (n : Nat) :
    ValueField Str × Nat :=
  ValueField.construct gen ⟨o.toBase, spreadProp "" o.value⟩ n

/-- The factory `Field.List` (fields.ts lines 413 to 415): forwards the
options unchanged. -/
def Field.List (gen : UuidGen) (o : BaseField.IOptions) (n : Nat) :
    ListField × Nat :=
  ListField.construct gen o n

/-- The factory `Field.Map` (fields.ts lines 425 to 427): forwards the
options unchanged. -/
def Field.Map (gen : UuidGen) (o : BaseField.IOptions) (n : Nat) :
    MapField × Nat :=
  MapField.construct gen o n

/-- The factory `Field.Text` (fields.ts lines 437 to 439): forwards the
options unchanged. -/
def Field.Text (gen : UuidGen) (o : BaseField.IOptions) (n : Nat) :
    TextField × Nat :=
  TextField.construct gen o n

/-- The factory `Field.Value` (fields.ts lines 449 to 451): forwards the
options unchanged to the `ValueField` constructor; there is no default for
`value`. -/
def Field.Value {T : Type} (gen : UuidGen) (o : ValueField.IOptions T)
    (n : Nat) : ValueField T × Nat :=
  ValueField.construct gen o n

/-- The empty options object, all keys absent. -/
def emptyOpts : BaseField.IOptions := ⟨none, none, []⟩

/-- The empty value-field options object, all keys absent, including
`value`. -/
def emptyValueOpts (T : Type) : ValueField.IOptions T := ⟨emptyOpts, none⟩

/-- The read operations this layer exposes on a constructed field: the
`type` getter and the `undoable`, `description`, `uuid` and (on value
fields) `value` readonly properties. The classes in fields.ts declare no
setter and no other method. -/
inductive ReadOp where
  | getType
  | getUndoable
  | getDescription
  | getUuid
  | getValue

/-- The result of one read: the JavaScript value the property access
returns. Reading `value` on a field of a non-value kind returns
`undefined`, as reading an absent property does. -/
inductive Obs (J : Type) where
  | str : Str → Obs J
  | obool : Option Bool → Obs J
  | ostr : Option Str → Obs J
  | oval : Option J → Obs J

/-- Applying one read operation to a field: the answer, and the field as it
stands afterwards. Each branch embeds the body of the corresponding getter
or readonly property of fields.ts, none of which assigns anything. -/
def applyRead {J : Type} : ReadOp → Field J → Obs J × Field J
  | .getType, f => (.str f.type, f)
  | .getUndoable, f => (.obool f.base.undoable, f)
  | .getDescription, f => (.ostr f.base.description, f)
  | .getUuid, f => (.str f.base.uuid, f)
  | .getValue, .value v => (.oval v.value, .value v)
  | .getValue, f => (.oval none, f)

/-- The field left after a sequence of read operations. -/
def applyReads {J : Type} : List ReadOp → Field J → Field J
  | [], f => f
  | op :: ops, f => applyReads ops (applyRead op f).2

/-- One construction request, of any kind, via a direct constructor or via
the corresponding factory function, as made by schema authors over the
lifetime of a process. -/
inductive FieldSpec (J : Type) where
  | directList (o : BaseField.IOptions)
  | directMap (o : BaseField.IOptions)
  | directText (o : BaseField.IOptions)
  | directValue (o : ValueField.IOptions J)
  | factoryBoolean (o : ValueField.IOptions Bool)
  | factoryNumber (o : ValueField.IOptions Int)
  | factoryString (o : ValueField.IOptions Str)
  | factoryList (o : BaseField.IOptions)
  | factoryMap (o : BaseField.IOptions)
  | factoryText (o : BaseField.IOptions)
  | factoryValue (o : ValueField.IOptions J)

/-- Performing one construction request and keeping the shared base part of
the constructed field (where `uuid` lives). Every kind draws exactly one
identity from the supply. -/
def FieldSpec.construct {J : Type} (gen : UuidGen) :
    FieldSpec J → Nat → BaseField × Nat
  | .directList o, n => let r := ListField.construct gen o n; (r.1.toBase, r.2)
  | .directMap o, n => let r := MapField.construct gen o n; (r.1.toBase, r.2)
  | .directText o, n => let r := TextField.construct gen o n; (r.1.toBase, r.2)
  | .directValue o, n => let r := ValueField.construct gen o n; (r.1.toBase, r.2)
  | .factoryBoolean o, n => let r := Field.Boolean gen o n; (r.1.toBase, r.2)
  | .factoryNumber o, n => let r := Field.Number gen o n; (r.1.toBase, r.2)
  | .factoryString o, n => let r := Field.String gen o n; (r.1.toBase, r.2)
  | .factoryList o, n => let r := Field.List gen o n; (r.1.toBase, r.2)
  | .factoryMap o, n => let r := Field.Map gen o n; (r.1.toBase, r.2)
  | .factoryText o, n => let r := Field.Text gen o n; (r.1.toBase, r.2)
  | .factoryValue o, n => let r := Field.Value gen o n; (r.1.toBase, r.2)

/-- Performing a list of construction requests in order in one process,
threading the identity supply through. -/
def buildAll {J : Type} (gen : UuidGen) :
    List (FieldSpec J) → Nat → List BaseField × Nat
  | [], n => ([], n)
  | s :: ss, n =>
    let r := FieldSpec.construct gen s n
    let rest := buildAll gen ss r.2
    (r.1 :: rest.1, rest.2)

/-- Modelled from the spec: the patch engine that applies one side of a
`MapField.IChange` is an external collaborator and not under src, so its
application step follows section 4.3 and section 6 of the spec. A map state
assigns to each string key a present value or absence; a change names the
changed keys and, in `previous` and `current`, the entry recorded for each
changed key (`some v` a value, `none` absence). Applying one side writes
each changed key its recorded entry, deleting keys marked absent, and
leaves every other key untouched. -/
def applyMapChange {T : Type} (state : Str → Option T) (keys : List Str)
    (entries : Str → Option T) : Str → Option T :=
  fun k => if k ∈ keys then entries k else state k

/-- A deterministic identity supply used for concrete witnesses: the n-th
identity is a string of n plus one letters, so distinct calls give distinct
nonempty identities. -/
def genW : UuidGen := fun n => String.mk (List.replicate (n + 1) 'a')

/-- A concrete map state with one key. -/
def mapStateEx : Str → Option Int := fun k => if k = "a" then some 1 else none

/-- The `previous` side of a concrete change at key a. -/
def prevEx : Str → Option Int := fun k => if k = "a" then some 1 else none

/-- The `current` side of a concrete change at key a. -/
def currEx : Str → Option Int := fun k => if k = "a" then some 2 else none

theorem applyRead_snd {J : Type} (op : ReadOp) (f : Field J) :
    (applyRead op f).2 = f := by
  cases op <;> cases f <;> rfl

theorem applyReads_fix {J : Type} (ops : List ReadOp) (f : Field J) :
    applyReads ops f = f := by
  induction ops generalizing f with
  | nil => rfl
  | cons op ops ih =>
    show applyReads ops (applyRead op f).2 = f
    rw [applyRead_snd, ih]

theorem FieldSpec.construct_uuid {J : Type} (gen : UuidGen) (s : FieldSpec J)
    (n : Nat) :
    (FieldSpec.construct gen s n).1.uuid = gen n ∧
      (FieldSpec.construct gen s n).2 = n + 1 := by
  cases s <;> exact ⟨rfl, rfl⟩

theorem buildAll_uuid_mem {J : Type} (gen : UuidGen) (ss : List (FieldSpec J))
    (n : Nat) : ∀ b ∈ (buildAll gen ss n).1, ∃ k, n ≤ k ∧ b.uuid = gen k := by
  induction ss generalizing n with
  | nil => intro b hb; simp [buildAll] at hb
  | cons s ss ih =>
    intro b hb
    simp only [buildAll, List.mem_cons] at hb
    rcases hb with hb | hb
    · exact ⟨n, Nat.le_refl n, by rw [hb, (FieldSpec.construct_uuid gen s n).1]⟩
    · rw [(FieldSpec.construct_uuid gen s n).2] at hb
      obtain ⟨k, hk, huuid⟩ := ih (n + 1) b hb
      exact ⟨k, by omega, huuid⟩

theorem buildAll_pairwise {J : Type} (gen : UuidGen)
    (hinj : Function.Injective gen) (ss : List (FieldSpec J)) (n : Nat) :
    (buildAll gen ss n).1.Pairwise (fun a b => a.uuid ≠ b.uuid) := by
  induction ss generalizing n with
  | nil => simp [buildAll]
  | cons s ss ih =>
    simp only [buildAll]
    refine List.Pairwise.cons ?_ ?_
    · intro b hb
      rw [(FieldSpec.construct_uuid gen s n).2] at hb
      obtain ⟨k, hk, huuid⟩ := buildAll_uuid_mem gen ss (n + 1) b hb
      rw [(FieldSpec.construct_uuid gen s n).1, huuid]
      intro h
      have := hinj h
      omega
    · rw [(FieldSpec.construct_uuid gen s n).2]
      exact ih (n + 1)

theorem genW_length (n : Nat) : (genW n).length = n + 1 := by
  show (List.replicate (n + 1) 'a').length = n + 1
  simp

theorem genW_inj : Function.Injective genW := by
  intro a b h
  have h2 : (genW a).length = (genW b).length := by rw [h]
  rw [genW_length, genW_length] at h2
  omega

theorem genW_ne (n : Nat) : genW n ≠ "" := by
  intro h
  have h2 : (genW n).length = ("" : Str).length := by rw [h]
  rw [genW_length] at h2
  have h3 : ("" : Str).length = 0 := rfl
  omega

/-- C1 counterexample: constructing a value field with the `value` option
omitted does not fail at runtime with a configuration error. The code path
`Field.Value` returns normally on the empty options object, yielding a field
whose `value` property is `undefined` and consuming one identity from the
supply, whereas the constructor that follows the words of the spec raises a
configuration error on the same input. -/
theorem valueOmitted_no_error_at_runtime :
    (Field.Value genW (emptyValueOpts Int) 0).1.value = none ∧
    (Field.Value genW (emptyValueOpts Int) 0).2 = 1 ∧
    ValueField.constructSpec genW (emptyValueOpts Int) 0 =
      .error "configuration error: the value option is required" :=
  ⟨rfl, rfl, rfl⟩

/-- C1 (amended): constructing a ValueField with an explicit value 42
succeeds and yields a field with value 42 and kind value; constructing with
the `value` option omitted is rejected only statically by the TypeScript
type of `ValueField.IOptions` — at runtime the constructor performs no check
and returns normally, with the `value` property left `undefined`. -/
theorem value_explicit_succeeds_omitted_unchecked (gen : UuidGen)
    (tB : BaseField.IOptions) (n : Nat) :
    (Field.Value gen ⟨tB, some (some (42 : Int))⟩ n).1.value = some 42 ∧
    (Field.Value gen ⟨tB, some (some (42 : Int))⟩ n).1.type = "value" ∧
    (Field.Value gen (⟨tB, none⟩ : ValueField.IOptions Int) n).1.value = none ∧
    (Field.Value gen (⟨tB, none⟩ : ValueField.IOptions Int) n).2 = n + 1 :=
  ⟨rfl, rfl, rfl, rfl⟩

/-- C2: a freshly constructed field of each of the four kinds has the
expected constant discriminant — list, map, text, value — and after any
sequence of read operations a further access of the `type` getter still
returns that same constant. -/
theorem type_discriminant_constant (J : Type) (gen : UuidGen)
    (o : BaseField.IOptions) (oV : ValueField.IOptions J) (n : Nat)
    (ops : List ReadOp) :
    (ListField.construct gen o n).1.type = "list" ∧
    (MapField.construct gen o n).1.type = "map" ∧
    (TextField.construct gen o n).1.type = "text" ∧
    (ValueField.construct gen oV n).1.type = "value" ∧
    (applyRead .getType (applyReads ops
      (Field.list (ListField.construct gen o n).1 : Field J))).1 =
        Obs.str "list" ∧
    (applyRead .getType (applyReads ops
      (Field.map (MapField.construct gen o n).1 : Field J))).1 =
        Obs.str "map" ∧
    (applyRead .getType (applyReads ops
      (Field.text (TextField.construct gen o n).1 : Field J))).1 =
        Obs.str "text" ∧
    (applyRead .getType
      (applyReads ops (.value (ValueField.construct gen oV n).1))).1 =
        Obs.str "value" := by
  simp only [applyReads_fix]
  exact ⟨rfl, rfl, rfl, rfl, rfl, rfl, rfl, rfl⟩

/-- C3: the factories called with no options yield the documented defaults:
`Field.Boolean` a value field holding false, `Field.Number` one holding 0,
`Field.String` one holding the empty string, each with `undoable` true and
`description` empty. -/
theorem factory_defaults (gen : UuidGen) (n : Nat) :
    (Field.Boolean gen (emptyValueOpts Bool) n).1.value = some false ∧
    (Field.Boolean gen (emptyValueOpts Bool) n).1.toBase.undoable =
      some true ∧
    (Field.Boolean gen (emptyValueOpts Bool) n).1.toBase.description =
      some "" ∧
    (Field.Number gen (emptyValueOpts Int) n).1.value = some 0 ∧
    (Field.Number gen (emptyValueOpts Int) n).1.toBase.undoable =
      some true ∧
    (Field.Number gen (emptyValueOpts Int) n).1.toBase.description =
      some "" ∧
    (Field.String gen (emptyValueOpts Str) n).1.value = some "" ∧
    (Field.String gen (emptyValueOpts Str) n).1.toBase.undoable =
      some true ∧
    (Field.String gen (emptyValueOpts Str) n).1.toBase.description =
      some "" :=
  ⟨rfl, rfl, rfl, rfl, rfl, rfl, rfl, rfl, rfl⟩

/-- C4: the base constructor, the code path every field constructor runs
through, reads only the two recognized keys: a present `undoable` or
`description` slot (defined or not) is taken as supplied, the defaults true
and the empty string apply only when the key is absent, and unknown extra
keys never influence the constructed field, whatever they are. -/
theorem base_constructor_reads_two_keys (gen : UuidGen) (n : Nat)
    (u : Option Bool) (d : Option Str) (o : BaseField.IOptions)
    (e e2 : List (Str × Str)) :
    (BaseField.construct gen ⟨some u, some d, e⟩ n).1.undoable = u ∧
    (BaseField.construct gen ⟨some u, some d, e⟩ n).1.description = d ∧
    (BaseField.construct gen ⟨none, none, e⟩ n).1.undoable = some true ∧
    (BaseField.construct gen ⟨none, none, e⟩ n).1.description = some "" ∧
    BaseField.construct gen ⟨o.undoable, o.description, e2⟩ n =
      BaseField.construct gen o n :=
  ⟨rfl, rfl, rfl, rfl, rfl⟩

/-- C5: for each of the four kinds, overriding `undoable` to false is
observable as an `undoable` property of false and changes nothing else: the
discriminant is the same constant as without the override, the identity is
the same one drawn by the same single call to the supply, and exactly one
identity is consumed. -/
theorem undoable_false_frame (J : Type) (gen : UuidGen)
    (o : BaseField.IOptions) (oV : ValueField.IOptions J) (n : Nat) :
    (ListField.construct gen ⟨some (some false), o.description, o.extra⟩
      n).1.toBase.undoable = some false ∧
    (ListField.construct gen ⟨some (some false), o.description, o.extra⟩
      n).1.type = (ListField.construct gen o n).1.type ∧
    (ListField.construct gen ⟨some (some false), o.description, o.extra⟩
      n).1.toBase.uuid = (ListField.construct gen o n).1.toBase.uuid ∧
    (ListField.construct gen ⟨some (some false), o.description, o.extra⟩
      n).2 = n + 1 ∧
    (MapField.construct gen ⟨some (some false), o.description, o.extra⟩
      n).1.toBase.undoable = some false ∧
    (MapField.construct gen ⟨some (some false), o.description, o.extra⟩
      n).1.type = (MapField.construct gen o n).1.type ∧
    (MapField.construct gen ⟨some (some false), o.description, o.extra⟩
      n).1.toBase.uuid = (MapField.construct gen o n).1.toBase.uuid ∧
    (MapField.construct gen ⟨some (some false), o.description, o.extra⟩
      n).2 = n + 1 ∧
    (TextField.construct gen ⟨some (some false), o.description, o.extra⟩
      n).1.toBase.undoable = some false ∧
    (TextField.construct gen ⟨some (some false), o.description, o.extra⟩
      n).1.type = (TextField.construct gen o n).1.type ∧
    (TextField.construct gen ⟨some (some false), o.description, o.extra⟩
      n).1.toBase.uuid = (TextField.construct gen o n).1.toBase.uuid ∧
    (TextField.construct gen ⟨some (some false), o.description, o.extra⟩
      n).2 = n + 1 ∧
    (ValueField.construct gen
      ⟨⟨some (some false), oV.toBase.description, oV.toBase.extra⟩, oV.value⟩
      n).1.toBase.undoable = some false ∧
    (ValueField.construct gen
      ⟨⟨some (some false), oV.toBase.description, oV.toBase.extra⟩, oV.value⟩
      n).1.type = (ValueField.construct gen oV n).1.type ∧
    (ValueField.construct gen
      ⟨⟨some (some false), oV.toBase.description, oV.toBase.extra⟩, oV.value⟩
      n).1.toBase.uuid = (ValueField.construct gen oV n).1.toBase.uuid ∧
    (ValueField.construct gen
      ⟨⟨some (some false), oV.toBase.description, oV.toBase.extra⟩, oV.value⟩
      n).2 = n + 1 :=
  ⟨rfl, rfl, rfl, rfl, rfl, rfl, rfl, rfl, rfl, rfl, rfl, rfl, rfl, rfl,
    rfl, rfl⟩

/-- C6: fields are immutable after construction. Every sequence of the read
operations this layer exposes leaves any field of any kind unchanged, so a
further read of any observable property returns the same answer it returned
right after construction. -/
theorem fields_immutable (J : Type) (f : Field J) (ops : List ReadOp)
    (op : ReadOp) :
    applyReads ops f = f ∧
      (applyRead op (applyReads ops f)).1 = (applyRead op f).1 := by
  refine ⟨applyReads_fix ops f, ?_⟩
  rw [applyReads_fix]

/-- C7: under the assumption that the external unique-identity supply is
collision free (injective) and never returns the empty string, any sequence
of field constructions performed in one process — of any kinds, via factory
or direct construction — yields pairwise distinct identities, and every
identity is a nonempty string. -/
theorem uuids_distinct_nonempty (J : Type) (gen : UuidGen)
    (hinj : Function.Injective gen) (hne : ∀ m, gen m ≠ "")
    (ss : List (FieldSpec J)) (n : Nat) :
    (buildAll gen ss n).1.Pairwise (fun a b => a.uuid ≠ b.uuid) ∧
      ∀ b ∈ (buildAll gen ss n).1, b.uuid ≠ "" := by
  refine ⟨buildAll_pairwise gen hinj ss n, ?_⟩
  intro b hb
  obtain ⟨k, _, huuid⟩ := buildAll_uuid_mem gen ss n b hb
  rw [huuid]
  exact hne k

/-- Witness for C7 at a concrete supply and a concrete construction
sequence mixing direct construction and factories. -/
theorem uuids_distinct_nonempty_witness :
    (buildAll genW
      ([.directList emptyOpts, .factoryBoolean (emptyValueOpts Bool),
        .directValue (emptyValueOpts Int)] : List (FieldSpec Int))
      0).1.Pairwise (fun a b => a.uuid ≠ b.uuid) ∧
      ∀ b ∈ (buildAll genW
        ([.directList emptyOpts, .factoryBoolean (emptyValueOpts Bool),
          .directValue (emptyValueOpts Int)] : List (FieldSpec Int))
        0).1, b.uuid ≠ "" :=
  uuids_distinct_nonempty Int genW genW_inj genW_ne
    [.directList emptyOpts, .factoryBoolean (emptyValueOpts Bool),
      .directValue (emptyValueOpts Int)] 0

/-- C8: a MapField change record is exactly invertible. For every map state
and every change whose `previous` side records, for each changed key, the
entry the state held before the mutation (its value, or absence), applying
`previous` in place of `current` after applying `current` reconstructs the
pre-mutation state exactly, with no lossy merge. -/
theorem mapChange_invertible (T : Type) (s : Str → Option T)
    (keys : List Str) (previous current : Str → Option T)
    (h : ∀ k ∈ keys, previous k = s k) :
    applyMapChange (applyMapChange s keys current) keys previous = s := by
  funext k
  by_cases hk : k ∈ keys
  · simp [applyMapChange, hk]
    exact h k hk
  · simp [applyMapChange, hk]

/-- Witness for C8 at the concrete change of the spec example: previous
holds a to 1, current holds a to 2. -/
theorem mapChange_invertible_witness :
    applyMapChange (applyMapChange mapStateEx ["a"] currEx) ["a"] prevEx =
      mapStateEx :=
  mapChange_invertible Int mapStateEx ["a"] prevEx currEx (by
    intro k hk
    simp only [List.mem_singleton] at hk
    rw [hk]
    rfl)

/-- C9: a recognized option key that is present but explicitly holds
`undefined` does not fall back to the default: the spread overwrites the
default with the supplied `undefined`, so the constructed field's
`undoable` is `undefined` rather than true, and its `description` is
`undefined` rather than the empty string. -/
theorem explicit_undefined_not_defaulted (gen : UuidGen) (n : Nat)
    (e : List (Str × Str)) :
    (ListField.construct gen ⟨some none, some none, e⟩ n).1.toBase.undoable =
      none ∧
    (ListField.construct gen ⟨some none, some none, e⟩
      n).1.toBase.undoable ≠ some true ∧
    (ListField.construct gen ⟨some none, some none, e⟩
      n).1.toBase.description = none ∧
    (ListField.construct gen ⟨some none, some none, e⟩
      n).1.toBase.description ≠ some "" := by
  refine ⟨rfl, ?_, rfl, ?_⟩ <;>
    simp [ListField.construct, BaseField.construct, spreadKey]

/-- C10: in the factories `Field.Boolean`, `Field.Number` and
`Field.String`, an explicitly supplied `value` overrides the kind-specific
default: whenever the options carry a defined value v, the returned field
holds v; in particular `Field.Boolean` with value true holds true. -/
theorem factory_value_override (gen : UuidGen) (n : Nat)
    (tB : BaseField.IOptions) (b : Bool) (i : Int) (s : Str) :
    (Field.Boolean gen ⟨tB, some (some b)⟩ n).1.value = some b ∧
    (Field.Number gen ⟨tB, some (some i)⟩ n).1.value = some i ∧
    (Field.String gen ⟨tB, some (some s)⟩ n).1.value = some s ∧
    (Field.Boolean gen ⟨tB, some (some true)⟩ n).1.value = some true :=
  ⟨rfl, rfl, rfl, rfl⟩

end Phosphor
